import Mathlib

/-!
# Verification of the CUDA/WASI import-resolution layer

Shallow embedding of `src/lib/c-api/src/wasm_c_api/cuda.rs` from the
`wasmer-gpu` repository, together with models of the external
collaborators (`ImportObject`, `CudaEnv`, `WasiEnv`, `get_wasi_version`)
that the file uses but that live outside the provided sources.

Host bindings are opaque to the resolver, so everything is parameterized
over a binding type `B`.
-/

set_option autoImplicit false

namespace WasmerCuda

/-- An import key: `(namespace, name)` pair of strings, exactly as used by
`ImportObject::resolve_by_name(module, name)`. -/
abbrev ImportKey := String × String

/-- Mirror of `CApiError { msg: String }` from `src/lib/c-api/src/error.rs`:
the descriptive message recorded into the last-error slot by `c_try!`. -/
structure CApiError where
  msg : String
deriving DecidableEq, Repr

/-- Mirror of `wasmer_wasi::WasiVersion` (external crate): the recognized
system-call interface versions. -/
inductive WasiVersion where
  | snapshot0
  | snapshot1
  | latest
deriving DecidableEq, Repr

/-- Opaque runtime store context (`wasmer::Store`), read-only here; the
resolver only threads it through to `Extern::from_vm_export`, which we model
as the identity on opaque bindings. -/
structure Store where
deriving DecidableEq, Repr

/-- Mirror of `wasm_store_t { inner: Store }`. -/
structure wasm_store_t where
  inner : Store
deriving DecidableEq, Repr

/-- Model of a compiled module as the resolver observes it:
`module.inner.imports()` yields the ordered import descriptor, and
`get_wasi_version(&module.inner, false)` yields `wasiVersion` (the detected
system-call interface version, when one is recognized). -/
structure wasm_module_t where
  imports : List ImportKey
  wasiVersion : Option WasiVersion

/-- Modelled from the spec: a Capability Provider (GPU variant,
`wasmer_cuda::env::CudaEnv`, external crate) "can enumerate the
(namespace, name) → binding pairs it offers"; we model it by that
enumeration. -/
structure CudaEnv (B : Type) where
  offers : List (ImportKey × B)

/-- Mirror of `cuda_env_t { inner: CudaEnv }`. -/
structure cuda_env_t (B : Type) where
  inner : CudaEnv B

/-- Modelled from the spec: a Capability Provider (system-call variant,
`wasmer_wasi::WasiEnv`, external crate) enumerates the bindings it offers;
the offered set depends on the detected interface version. -/
structure WasiEnv (B : Type) where
  offers : WasiVersion → List (ImportKey × B)

/-- Mirror of `wasi_env_t { inner: WasiEnv }`. -/
structure wasi_env_t (B : Type) where
  inner : WasiEnv B

/-- Mirror of `wasmer_named_extern_t`: one `(namespace, name, binding)`
triple of the unordered snapshot.  The binding field is `r#extern` in the
source. -/
structure wasmer_named_ext_t (B : Type) where
  module : String
  name : String
  ext : B
deriving DecidableEq, Repr

/-- Modelled from the spec: `wasmer::ImportObject` is an "ImportTable:
mapping from ImportKey to HostBinding.  Keys are unique; when two providers
offer the same key, the later-merged provider's binding replaces the earlier
one".  We represent it as an association list whose keys stay unique by
construction (insertion overwrites, never appends). -/
abbrev ImportObject (B : Type) := List (ImportKey × B)

/-- Keys of an import table, in table order. -/
def keysOf {B : Type} (io : ImportObject B) : List ImportKey :=
  io.map Prod.fst

/-- Modelled from the spec: inserting one `(key, binding)` pair into the
table, "overwriting any prior entry with the same key". -/
def registerOne {B : Type} (io : ImportObject B) (k : ImportKey) (b : B) :
    ImportObject B :=
  if k ∈ keysOf io then
    io.map (fun p => if p.1 = k then (k, b) else p)
  else
    io ++ [(k, b)]

/-- Modelled from the spec: the Import Table Builder iterates a provider's
offered pairs in order and inserts each into the table. -/
def registerList {B : Type} (io : ImportObject B) (l : List (ImportKey × B)) :
    ImportObject B :=
  l.foldl (fun acc kb => registerOne acc kb.1 kb.2) io

/-- Modelled from the spec: `ImportObject::resolve_by_name(namespace, name)`
performs an exact lookup in the table. -/
def resolve_by_name {B : Type} : ImportObject B → String → String → Option B
  | [], _, _ => none
  | p :: rest, ns, name =>
      if p.1 = (ns, name) then some p.2 else resolve_by_name rest ns name

/-- Modelled from the spec: `add_cuda_to_import(store, env, &mut io)`
(from `wasmer_cuda`, external) inserts every binding the GPU provider
offers into the table. -/
def add_cuda_to_import {B : Type} (_store : Store) (env : CudaEnv B)
    (io : ImportObject B) : ImportObject B :=
  registerList io env.offers

/-- Modelled from the spec: `generate_import_object_from_env(store, env,
version)` (from `wasmer_wasi`, external) builds a fresh table holding the
system-call provider's bindings for the detected version. -/
def generate_import_object_from_env {B : Type} (_store : Store)
    (env : WasiEnv B) (version : WasiVersion) : ImportObject B :=
  registerList [] (env.offers version)

/-- Modelled from the spec: `get_wasi_version(&module, false)` (from
`wasmer_wasi`, external) inspects the module and detects which system-call
interface version it targets, if any is recognized. -/
def get_wasi_version (m : wasm_module_t) (_strict : Bool) :
    Option WasiVersion :=
  m.wasiVersion

/-- The message `format!`-ed at the unresolved-import site of
`map_to_ordered_imports`. -/
def unresolvedImportMsg (ns name : String) : String :=
  "failed to resolve import \"" ++ ns ++ "\" \"" ++ name ++ "\" !!"

/-- The message recorded when `get_wasi_version` detects nothing, in
`cuda_wasi_get_imports_inner`. -/
def wasiVersionMsg : String :=
  "could not detect a WASI version on this module"

/-- The short-circuiting body of `map_to_ordered_imports`: Rust maps each
declared import through a closure that `c_try!`s `resolve_by_name` and
then `collect`s into `Option<Vec<_>>`, which stops at the first `None`
produced by the closure.  We carry the `CApiError` that `c_try!` records
into the last-error slot as the `Except` error. -/
def collectResolved {B : Type} (io : ImportObject B) :
    List ImportKey → Except CApiError (List B)
  | [] => Except.ok []
  | k :: rest =>
      match resolve_by_name io k.1 k.2 with
      | none => Except.error ⟨unresolvedImportMsg k.1 k.2⟩
      | some b =>
          match collectResolved io rest with
          | Except.error e => Except.error e
          | Except.ok l => Except.ok (b :: l)

/-- A call outcome at the C boundary: `Except.ok` models the inner function
returning `Some(())`; `Except.error err` models `None`, where `err` is the
content of the last-error slot (`none` when the failure wrote no message,
as with a missing handle). -/
abbrev CallResult := Except (Option CApiError) Unit

/-- Embedding of `map_to_ordered_imports(imports, module, import_object,
store)`.  The first component of the result is the content of the `imports`
out-vector after the call: Rust assigns `*imports` only after the whole
`collect` succeeded, so on failure the caller's vector is returned
untouched. -/
def map_to_ordered_imports {B : Type} (imports : List B)
    (module : wasm_module_t) (import_object : ImportObject B)
    (_store : Store) : List B × CallResult :=
  match collectResolved import_object module.imports with
  | Except.error e => (imports, Except.error (some e))
  | Except.ok out => (out, Except.ok ())

/-- Embedding of `cuda_get_imports_inner`: the three `?` handle checks,
then a fresh table holding only the GPU provider's bindings, then the
ordered resolution. -/
def cuda_get_imports_inner {B : Type} (store : Option wasm_store_t)
    (module : Option wasm_module_t) (cuda_env : Option (cuda_env_t B))
    (imports : List B) : List B × CallResult :=
  match store, module, cuda_env with
  | some store, some module, some cuda_env =>
      let store := store.inner
      let import_object := add_cuda_to_import store cuda_env.inner []
      map_to_ordered_imports imports module import_object store
  | _, _, _ => (imports, Except.error none)

/-- Embedding of the boundary function `cuda_get_imports`, whose C return
value is `inner(...).is_some()`. -/
def cuda_get_imports {B : Type} (store : Option wasm_store_t)
    (module : Option wasm_module_t) (cuda_env : Option (cuda_env_t B))
    (imports : List B) : List B × Bool :=
  let r := cuda_get_imports_inner store module cuda_env imports
  (r.1, r.2.isOk)

/-- Embedding of `cuda_wasi_get_imports_inner`: four `?` handle checks,
then version detection (`c_try!` failing with `wasiVersionMsg` when
undetected), then the wasi table, then the GPU provider merged on top,
then the ordered resolution. -/
def cuda_wasi_get_imports_inner {B : Type} (store : Option wasm_store_t)
    (module : Option wasm_module_t) (cuda_env : Option (cuda_env_t B))
    (wasi_env : Option (wasi_env_t B)) (imports : List B) :
    List B × CallResult :=
  match store, module, cuda_env, wasi_env with
  | some store, some module, some cuda_env, some wasi_env =>
      let store := store.inner
      match get_wasi_version module false with
      | none => (imports, Except.error (some ⟨wasiVersionMsg⟩))
      | some version =>
          let import_object :=
            generate_import_object_from_env store wasi_env.inner version
          let import_object :=
            add_cuda_to_import store cuda_env.inner import_object
          map_to_ordered_imports imports module import_object store
  | _, _, _, _ => (imports, Except.error none)

/-- Embedding of the boundary function `cuda_wasi_get_imports`. -/
def cuda_wasi_get_imports {B : Type} (store : Option wasm_store_t)
    (module : Option wasm_module_t) (cuda_env : Option (cuda_env_t B))
    (wasi_env : Option (wasi_env_t B)) (imports : List B) :
    List B × Bool :=
  let r := cuda_wasi_get_imports_inner store module cuda_env wasi_env imports
  (r.1, r.2.isOk)

/-- Embedding of `cuda_get_unordered_imports_inner`: two `?` handle checks,
then a fresh table holding the GPU provider's bindings, dumped as
`(namespace, name, binding)` triples.  The first component is the
`unordered_imports` out-vector after the call. -/
def cuda_get_unordered_imports_inner {B : Type}
    (store : Option wasm_store_t) (cuda_env : Option (cuda_env_t B))
    (unordered_imports : List (wasmer_named_ext_t B)) :
    List (wasmer_named_ext_t B) × CallResult :=
  match store, cuda_env with
  | some store, some cuda_env =>
      let store := store.inner
      let import_object := add_cuda_to_import store cuda_env.inner []
      (import_object.map (fun kb => ⟨kb.1.1, kb.1.2, kb.2⟩),
       Except.ok ())
  | _, _ => (unordered_imports, Except.error none)

/-- Embedding of the boundary function `cuda_get_unordered_imports`. -/
def cuda_get_unordered_imports {B : Type} (store : Option wasm_store_t)
    (cuda_env : Option (cuda_env_t B))
    (unordered_imports : List (wasmer_named_ext_t B)) :
    List (wasmer_named_ext_t B) × Bool :=
  let r := cuda_get_unordered_imports_inner store cuda_env unordered_imports
  (r.1, r.2.isOk)

/-- Embedding of `cuda_env_new`: wraps a freshly constructed provider
(`CudaEnv::new()`, external, passed here as a parameter) and
unconditionally returns `Some`. -/
def cuda_env_new {B : Type} (inner : CudaEnv B) : Option (cuda_env_t B) :=
  some { inner := inner }

/-- Embedding of `cuda_env_delete`: takes ownership of the optional handle
and does nothing. -/
def cuda_env_delete {B : Type} (_x : Option (cuda_env_t B)) : Unit := ()

/-! ## Lemmas about the table model -/

section TableLemmas

variable {B : Type}

@[simp] lemma keysOf_nil : keysOf ([] : ImportObject B) = [] := rfl

@[simp] lemma keysOf_cons (p : ImportKey × B) (l : ImportObject B) :
    keysOf (p :: l) = p.1 :: keysOf l := rfl

lemma keysOf_append (l l' : ImportObject B) :
    keysOf (l ++ l') = keysOf l ++ keysOf l' := by
  simp [keysOf]

@[simp] lemma resolve_by_name_nil (ns name : String) :
    resolve_by_name ([] : ImportObject B) ns name = none := rfl

@[simp] lemma resolve_by_name_cons (p : ImportKey × B)
    (l : ImportObject B) (ns name : String) :
    resolve_by_name (p :: l) ns name =
      if p.1 = (ns, name) then some p.2
      else resolve_by_name l ns name := rfl

lemma resolve_by_name_none_iff (io : ImportObject B) (ns name : String) :
    resolve_by_name io ns name = none ↔ (ns, name) ∉ keysOf io := by
  induction io with
  | nil => simp
  | cons p rest ih =>
      by_cases hp : p.1 = (ns, name)
      · simp [hp]
      · have : ¬(ns, name) = p.1 := fun h => hp h.symm
        simp [hp, ih, this]

lemma resolve_by_name_isSome_iff (io : ImportObject B) (ns name : String) :
    (resolve_by_name io ns name).isSome = true ↔ (ns, name) ∈ keysOf io := by
  rw [Option.isSome_iff_ne_none, not_iff_comm, ← resolve_by_name_none_iff]

lemma keysOf_map_update (io : ImportObject B) (k : ImportKey) (b : B) :
    keysOf (io.map (fun p => if p.1 = k then (k, b) else p)) = keysOf io := by
  induction io with
  | nil => rfl
  | cons p rest ih =>
      by_cases hp : p.1 = k
      · simpa [hp] using ih
      · simpa [hp] using ih

lemma keysOf_registerOne_of_mem (io : ImportObject B) (k : ImportKey)
    (b : B) (h : k ∈ keysOf io) :
    keysOf (registerOne io k b) = keysOf io := by
  rw [registerOne, if_pos h]
  exact keysOf_map_update io k b

lemma keysOf_registerOne_of_not_mem (io : ImportObject B) (k : ImportKey)
    (b : B) (h : k ∉ keysOf io) :
    keysOf (registerOne io k b) = keysOf io ++ [k] := by
  rw [registerOne, if_neg h, keysOf_append]
  rfl

lemma mem_keysOf_registerOne (io : ImportObject B) (k a : ImportKey)
    (b : B) :
    a ∈ keysOf (registerOne io k b) ↔ a ∈ keysOf io ∨ a = k := by
  by_cases h : k ∈ keysOf io
  · rw [keysOf_registerOne_of_mem io k b h]
    constructor
    · exact Or.inl
    · rintro (ha | rfl)
      · exact ha
      · exact h
  · rw [keysOf_registerOne_of_not_mem io k b h]
    simp

lemma length_registerOne_of_mem (io : ImportObject B) (k : ImportKey)
    (b : B) (h : k ∈ keysOf io) :
    (registerOne io k b).length = io.length := by
  rw [registerOne, if_pos h, List.length_map]

lemma length_registerOne_of_not_mem (io : ImportObject B) (k : ImportKey)
    (b : B) (h : k ∉ keysOf io) :
    (registerOne io k b).length = io.length + 1 := by
  rw [registerOne, if_neg h, List.length_append, List.length_singleton]

lemma resolve_map_update_of_mem (io : ImportObject B) (ns name : String)
    (b : B) (h : (ns, name) ∈ keysOf io) :
    resolve_by_name
      (io.map (fun p => if p.1 = (ns, name) then ((ns, name), b) else p))
      ns name = some b := by
  induction io with
  | nil => simp at h
  | cons p rest ih =>
      by_cases hp : p.1 = (ns, name)
      · simp [hp]
      · have h' : (ns, name) ∈ keysOf rest := by
          rcases (by simpa using h) with h | h
          · exact absurd h.symm hp
          · exact h
        simpa [hp] using ih h'

lemma resolve_map_update_other (io : ImportObject B) (k : ImportKey)
    (ns name : String) (b : B) (hne : (ns, name) ≠ k) :
    resolve_by_name (io.map (fun p => if p.1 = k then (k, b) else p))
      ns name = resolve_by_name io ns name := by
  induction io with
  | nil => rfl
  | cons p rest ih =>
      by_cases hp : p.1 = k
      · have hKne : ¬k = (ns, name) := fun h => hne h.symm
        have hpne : ¬p.1 = (ns, name) := by rw [hp]; exact hKne
        simpa [hp, hKne, hpne] using ih
      · by_cases hm : p.1 = (ns, name)
        · simp [hp, hm, hne]
        · simpa [hp, hm] using ih

lemma resolve_append_single_ne (io : ImportObject B) (k : ImportKey)
    (ns name : String) (b : B) (hne : (ns, name) ≠ k) :
    resolve_by_name (io ++ [(k, b)]) ns name =
      resolve_by_name io ns name := by
  induction io with
  | nil =>
      have : ¬k = (ns, name) := fun h => hne h.symm
      simp [this]
  | cons p rest ih =>
      by_cases hm : p.1 = (ns, name)
      · simp [hm]
      · simpa [hm] using ih

lemma resolve_registerOne_self (io : ImportObject B) (ns name : String)
    (b : B) :
    resolve_by_name (registerOne io (ns, name) b) ns name = some b := by
  rw [registerOne]
  by_cases h : (ns, name) ∈ keysOf io
  · rw [if_pos h]
    exact resolve_map_update_of_mem io ns name b h
  · rw [if_neg h]
    have hnone : resolve_by_name io ns name = none :=
      (resolve_by_name_none_iff io ns name).mpr h
    induction io with
    | nil => simp
    | cons p rest ih =>
        by_cases hm : p.1 = (ns, name)
        · simp [hm] at hnone
        · simp only [resolve_by_name_cons, if_neg hm] at hnone
          have hrest : (ns, name) ∉ keysOf rest :=
            (resolve_by_name_none_iff rest ns name).mp hnone
          simpa [hm] using ih hrest hnone

lemma resolve_registerOne_other (io : ImportObject B) (k : ImportKey)
    (ns name : String) (b : B) (hne : (ns, name) ≠ k) :
    resolve_by_name (registerOne io k b) ns name =
      resolve_by_name io ns name := by
  rw [registerOne]
  by_cases h : k ∈ keysOf io
  · rw [if_pos h]
    exact resolve_map_update_other io k ns name b hne
  · rw [if_neg h]
    exact resolve_append_single_ne io k ns name b hne

end TableLemmas

/-! ## Lemmas about merging whole providers -/

section RegisterListLemmas

variable {B : Type}

@[simp] lemma registerList_nil (io : ImportObject B) :
    registerList io [] = io := rfl

@[simp] lemma registerList_cons (io : ImportObject B)
    (q : ImportKey × B) (l : List (ImportKey × B)) :
    registerList io (q :: l) = registerList (registerOne io q.1 q.2) l := rfl

lemma resolve_registerList_not_mem (l : List (ImportKey × B))
    (io : ImportObject B) (ns name : String)
    (h : ∀ p ∈ l, p.1 ≠ (ns, name)) :
    resolve_by_name (registerList io l) ns name =
      resolve_by_name io ns name := by
  induction l generalizing io with
  | nil => rfl
  | cons q l ih =>
      rw [registerList_cons,
        ih (registerOne io q.1 q.2) (fun p hp => h p (List.mem_cons_of_mem q hp)),
        resolve_registerOne_other]
      exact fun he => h q (List.mem_cons_self q l) he.symm

lemma mem_keysOf_of_mem {l : List (ImportKey × B)} {p : ImportKey × B}
    (hp : p ∈ l) : p.1 ∈ keysOf l :=
  List.mem_map_of_mem Prod.fst hp

lemma resolve_registerList_mem (l : List (ImportKey × B))
    (io : ImportObject B) (ns name : String) (b : B)
    (hnd : (keysOf l).Nodup) (hmem : ((ns, name), b) ∈ l) :
    resolve_by_name (registerList io l) ns name = some b := by
  induction l generalizing io with
  | nil => simp at hmem
  | cons q l ih =>
      rw [keysOf_cons, List.nodup_cons] at hnd
      rcases List.mem_cons.mp hmem with heq | hmem'
      · subst heq
        rw [registerList_cons]
        rw [resolve_registerList_not_mem l _ ns name
          (fun p hp he => hnd.1 (by
            show (ns, name) ∈ keysOf l
            exact he ▸ mem_keysOf_of_mem hp))]
        exact resolve_registerOne_self io ns name b
      · rw [registerList_cons]
        exact ih (registerOne io q.1 q.2) hnd.2 hmem'

lemma mem_keysOf_registerList (l : List (ImportKey × B))
    (io : ImportObject B) (a : ImportKey) :
    a ∈ keysOf (registerList io l) ↔ a ∈ keysOf io ∨ a ∈ keysOf l := by
  induction l generalizing io with
  | nil => simp
  | cons q l ih =>
      rw [registerList_cons, ih, mem_keysOf_registerOne, keysOf_cons]
      simp only [List.mem_cons]
      tauto

lemma length_registerList (l : List (ImportKey × B))
    (io : ImportObject B) (hnd : (keysOf l).Nodup) :
    (registerList io l).length =
      io.length +
        ((keysOf l).filter (fun a => decide (a ∉ keysOf io))).length := by
  induction l generalizing io with
  | nil => simp
  | cons q l ih =>
      rw [keysOf_cons, List.nodup_cons] at hnd
      rw [registerList_cons, ih (registerOne io q.1 q.2) hnd.2, keysOf_cons]
      by_cases hmem : q.1 ∈ keysOf io
      · rw [length_registerOne_of_mem io q.1 q.2 hmem,
          keysOf_registerOne_of_mem io q.1 q.2 hmem]
        rw [List.filter_cons]
        simp [hmem]
      · rw [length_registerOne_of_not_mem io q.1 q.2 hmem,
          keysOf_registerOne_of_not_mem io q.1 q.2 hmem]
        have hcong :
            (keysOf l).filter
                (fun a => decide (a ∉ keysOf io ++ [q.1])) =
              (keysOf l).filter (fun a => decide (a ∉ keysOf io)) := by
          refine List.filter_congr (fun a ha => ?_)
          have hne : a ≠ q.1 := fun he => hnd.1 (he ▸ ha)
          simp [List.mem_append, hne]
        rw [hcong, List.filter_cons]
        simp only [hmem, not_false_eq_true, decide_True, if_true,
          List.length_cons]
        omega

end RegisterListLemmas

/-! ## Lemmas about the ordered-resolution loop -/

section CollectLemmas

variable {B : Type}

@[simp] lemma collectResolved_nil (io : ImportObject B) :
    collectResolved io [] = Except.ok [] := rfl

lemma collectResolved_cons_none (io : ImportObject B) (k : ImportKey)
    (L : List ImportKey) (h : resolve_by_name io k.1 k.2 = none) :
    collectResolved io (k :: L) =
      Except.error ⟨unresolvedImportMsg k.1 k.2⟩ := by
  simp [collectResolved, h]

lemma collectResolved_cons_some (io : ImportObject B) (k : ImportKey)
    (L : List ImportKey) (b : B) (h : resolve_by_name io k.1 k.2 = some b) :
    collectResolved io (k :: L) =
      match collectResolved io L with
      | Except.error e => Except.error e
      | Except.ok l => Except.ok (b :: l) := by
  simp [collectResolved, h]

lemma collectResolved_all_hits (io : ImportObject B) (L : List ImportKey)
    (h : ∀ k ∈ L, (resolve_by_name io k.1 k.2).isSome = true) :
    ∃ out, collectResolved io L = Except.ok out ∧
      out.length = L.length ∧
      ∀ (i : Nat) (h1 : i < L.length) (h2 : i < out.length),
        some (out.get ⟨i, h2⟩) =
          resolve_by_name io (L.get ⟨i, h1⟩).1 (L.get ⟨i, h1⟩).2 := by
  induction L with
  | nil =>
      refine ⟨[], rfl, rfl, ?_⟩
      intro i h1
      exact absurd h1 (Nat.not_lt_zero i)
  | cons k L ih =>
      obtain ⟨b, hb⟩ := Option.isSome_iff_exists.mp
        (h k (List.mem_cons_self k L))
      obtain ⟨out, hout, hlen, hidx⟩ :=
        ih (fun k' hk' => h k' (List.mem_cons_of_mem k hk'))
      refine ⟨b :: out, ?_, by simpa using hlen, ?_⟩
      · rw [collectResolved_cons_some io k L b hb, hout]
      · intro i h1 h2
        match i with
        | 0 => simpa using hb.symm
        | i + 1 =>
            simpa using hidx i (Nat.lt_of_succ_lt_succ h1)
              (Nat.lt_of_succ_lt_succ h2)

lemma collectResolved_first_miss (io : ImportObject B)
    (pre suf : List ImportKey) (k : ImportKey)
    (hpre : ∀ k' ∈ pre, (resolve_by_name io k'.1 k'.2).isSome = true)
    (hk : resolve_by_name io k.1 k.2 = none) :
    collectResolved io (pre ++ k :: suf) =
      Except.error ⟨unresolvedImportMsg k.1 k.2⟩ := by
  induction pre with
  | nil => simpa using collectResolved_cons_none io k suf hk
  | cons k' pre ih =>
      obtain ⟨b, hb⟩ := Option.isSome_iff_exists.mp
        (hpre k' (List.mem_cons_self k' pre))
      rw [List.cons_append, collectResolved_cons_some io k' _ b hb,
        ih (fun q hq => hpre q (List.mem_cons_of_mem k' hq))]

lemma collectResolved_err_of_miss (io : ImportObject B)
    (L : List ImportKey) (h : ∃ k ∈ L, resolve_by_name io k.1 k.2 = none) :
    ∃ e, collectResolved io L = Except.error e := by
  induction L with
  | nil => simp at h
  | cons k L ih =>
      by_cases hk : resolve_by_name io k.1 k.2 = none
      · exact ⟨_, collectResolved_cons_none io k L hk⟩
      · obtain ⟨b, hb⟩ := Option.isSome_iff_exists.mp
          (Option.isSome_iff_ne_none.mpr hk)
        obtain ⟨k0, hk0L, hk0⟩ := h
        have hk0L' : k0 ∈ L := by
          rcases List.mem_cons.mp hk0L with rfl | hmem
          · exact absurd hk0 hk
          · exact hmem
        obtain ⟨e, he⟩ := ih ⟨k0, hk0L', hk0⟩
        refine ⟨e, ?_⟩
        rw [collectResolved_cons_some io k L b hb, he]

lemma collectResolved_error_msg (io : ImportObject B)
    (L : List ImportKey) (e : CApiError)
    (h : collectResolved io L = Except.error e) :
    ∃ ns name, e = ⟨unresolvedImportMsg ns name⟩ ∧
      resolve_by_name io ns name = none ∧ (ns, name) ∈ L := by
  induction L with
  | nil => simp at h
  | cons k L ih =>
      by_cases hk : resolve_by_name io k.1 k.2 = none
      · rw [collectResolved_cons_none io k L hk] at h
        refine ⟨k.1, k.2, ?_, hk, ?_⟩
        · exact (Except.error.inj h).symm
        · rw [Prod.mk.eta]
          exact List.mem_cons_self k L
      · obtain ⟨b, hb⟩ := Option.isSome_iff_exists.mp
          (Option.isSome_iff_ne_none.mpr hk)
        rw [collectResolved_cons_some io k L b hb] at h
        match hrec : collectResolved io L with
        | Except.error e' =>
            rw [hrec] at h
            obtain ⟨ns, name, h1, h2, h3⟩ := ih (by
              rw [hrec, Except.error.inj h])
            exact ⟨ns, name, h1, h2, List.mem_cons_of_mem k h3⟩
        | Except.ok l =>
            rw [hrec] at h
            exact absurd h (by simp)

lemma length_filter_partition {α : Type} (p : α → Bool) (l : List α) :
    (l.filter p).length + (l.filter (fun a => !p a)).length = l.length := by
  induction l with
  | nil => rfl
  | cons x l ih => cases hx : p x <;> simp [List.filter_cons, hx] <;> omega

lemma unresolvedImportMsg_ne_wasiVersionMsg (ns name : String) :
    unresolvedImportMsg ns name ≠ wasiVersionMsg := by
  intro h
  have h2 : (unresolvedImportMsg ns name).data.head? =
      wasiVersionMsg.data.head? := by rw [h]
  have hl : (unresolvedImportMsg ns name).data.head? = some 'f' := rfl
  have hr : wasiVersionMsg.data.head? = some 'c' := rfl
  rw [hl, hr] at h2
  exact absurd h2 (by decide)

end CollectLemmas

/-! ## The claims -/

/-- C1: for every module whose ordered import descriptor has every key
present in the merged import table, resolution succeeds, the output list
has the same length as the descriptor, and the output element at every
index `i` is exactly the table's binding for the `i`-th declared key, so
output order is exactly descriptor order. -/
theorem map_to_ordered_imports_complete {B : Type} (prev : List B)
    (module : wasm_module_t) (T : ImportObject B) (store : Store)
    (h : ∀ k ∈ module.imports, (resolve_by_name T k.1 k.2).isSome = true) :
    ∃ out, map_to_ordered_imports prev module T store = (out, Except.ok ()) ∧
      out.length = module.imports.length ∧
      ∀ (i : Nat) (h1 : i < module.imports.length) (h2 : i < out.length),
        some (out.get ⟨i, h2⟩) =
          resolve_by_name T (module.imports.get ⟨i, h1⟩).1
            (module.imports.get ⟨i, h1⟩).2 := by
  obtain ⟨out, hout, hlen, hidx⟩ :=
    collectResolved_all_hits T module.imports h
  exact ⟨out, by simp [map_to_ordered_imports, hout], hlen, hidx⟩

/-- Witness for C1 at a concrete two-import module and table. -/
theorem map_to_ordered_imports_complete_witness :
    ∃ out, map_to_ordered_imports ([] : List Nat)
        ⟨[("b", "y"), ("a", "x")], none⟩
        [(("a", "x"), 1), (("b", "y"), 2)] ⟨⟩ = (out, Except.ok ()) ∧
      out.length = 2 ∧
      ∀ (i : Nat) (h1 : i < ([("b", "y"), ("a", "x")] :
            List ImportKey).length) (h2 : i < out.length),
        some (out.get ⟨i, h2⟩) =
          resolve_by_name [(("a", "x"), 1), (("b", "y"), 2)]
            (([("b", "y"), ("a", "x")] :
              List ImportKey).get ⟨i, h1⟩).1
            (([("b", "y"), ("a", "x")] :
              List ImportKey).get ⟨i, h1⟩).2 :=
  map_to_ordered_imports_complete [] ⟨[("b", "y"), ("a", "x")], none⟩
    [(("a", "x"), 1), (("b", "y"), 2)] ⟨⟩ (by decide)

/-- C2: resolution is all-or-nothing — if any declared key is absent from
the table, the call fails and the caller-supplied output vector is
returned exactly as it was. -/
theorem map_to_ordered_imports_all_or_nothing {B : Type} (prev : List B)
    (module : wasm_module_t) (T : ImportObject B) (store : Store)
    (h : ∃ k ∈ module.imports, resolve_by_name T k.1 k.2 = none) :
    ∃ e, map_to_ordered_imports prev module T store =
      (prev, Except.error (some e)) := by
  obtain ⟨e, he⟩ := collectResolved_err_of_miss T module.imports h
  exact ⟨e, by simp [map_to_ordered_imports, he]⟩

/-- Witness for C2: one of two imports is missing; the caller's vector
(holding a sentinel) comes back untouched. -/
theorem map_to_ordered_imports_all_or_nothing_witness :
    ∃ e, map_to_ordered_imports ([7] : List Nat)
        ⟨[("a", "x"), ("gpu", "cuLaunchKernelV2")], none⟩
        [(("a", "x"), 1)] ⟨⟩ = ([7], Except.error (some e)) :=
  map_to_ordered_imports_all_or_nothing [7]
    ⟨[("a", "x"), ("gpu", "cuLaunchKernelV2")], none⟩
    [(("a", "x"), 1)] ⟨⟩
    ⟨("gpu", "cuLaunchKernelV2"), by decide, by decide⟩

/-- C3: on the first missing import the resolver aborts: whatever the
remaining descriptor entries are, the result is the same failure, and the
recorded message identifies exactly the namespace and name of the first
missing key in descriptor order. -/
theorem map_to_ordered_imports_first_miss {B : Type} (prev : List B)
    (T : ImportObject B) (store : Store) (v : Option WasiVersion)
    (pre suf : List ImportKey) (k : ImportKey)
    (hpre : ∀ k' ∈ pre, (resolve_by_name T k'.1 k'.2).isSome = true)
    (hk : resolve_by_name T k.1 k.2 = none) :
    map_to_ordered_imports prev ⟨pre ++ k :: suf, v⟩ T store =
      (prev, Except.error (some ⟨unresolvedImportMsg k.1 k.2⟩)) := by
  simp [map_to_ordered_imports,
    collectResolved_first_miss T pre suf k hpre hk]

/-- Witness for C3: two unsatisfiable imports; only the first one's
identity is reported, and the suffix after it is irrelevant. -/
theorem map_to_ordered_imports_first_miss_witness :
    map_to_ordered_imports ([] : List Nat)
        ⟨[("a", "x"), ("m1", "f1"), ("m2", "f2")], none⟩
        [(("a", "x"), 1)] ⟨⟩ =
      ([], Except.error (some ⟨unresolvedImportMsg "m1" "f1"⟩)) :=
  map_to_ordered_imports_first_miss [] [(("a", "x"), 1)] ⟨⟩ none
    [("a", "x")] [("m2", "f2")] ("m1", "f1") (by decide) (by decide)

/-- C4: in the merged path the system-call provider's table is built
first and the GPU provider's bindings are registered second, so a key
offered by both providers resolves, in the table `cuda_wasi_get_imports`
uses, to the GPU provider's binding (override, not an error). -/
theorem merged_table_gpu_overrides {B : Type} (store : Store)
    (wasiEnv : WasiEnv B) (cudaEnv : CudaEnv B) (version : WasiVersion)
    (ns name : String) (b : B)
    (hnd : (keysOf cudaEnv.offers).Nodup)
    (hcuda : ((ns, name), b) ∈ cudaEnv.offers)
    (_hwasi : (ns, name) ∈ keysOf (wasiEnv.offers version)) :
    resolve_by_name
      (add_cuda_to_import store cudaEnv
        (generate_import_object_from_env store wasiEnv version))
      ns name = some b := by
  simp only [add_cuda_to_import]
  exact resolve_registerList_mem cudaEnv.offers _ ns name b hnd hcuda

/-- Witness for C4: both providers offer `("a", "x")`; the merged table
yields the GPU provider's binding 2, not the wasi provider's 1. -/
theorem merged_table_gpu_overrides_witness :
    resolve_by_name
      (add_cuda_to_import ⟨⟩ ⟨[(("a", "x"), 2)]⟩
        (generate_import_object_from_env ⟨⟩
          ⟨fun _ => [(("a", "x"), 1)]⟩ WasiVersion.snapshot1))
      "a" "x" = some 2 :=
  merged_table_gpu_overrides ⟨⟩ ⟨fun _ => [(("a", "x"), 1)]⟩
    ⟨[(("a", "x"), 2)]⟩ WasiVersion.snapshot1 "a" "x" 2
    (by decide) (by decide) (by decide)

/-- C5: when the module's system-call interface version cannot be
detected, the merged path fails with the distinct undetected-version
message — for every pair of providers, so no key lookup can influence the
outcome — and that condition differs from every unresolved-import
condition. -/
theorem cuda_wasi_get_imports_undetected_version {B : Type}
    (store : wasm_store_t) (module : wasm_module_t)
    (cudaEnv : cuda_env_t B) (wasiEnv : wasi_env_t B) (prev : List B)
    (hv : get_wasi_version module false = none) :
    cuda_wasi_get_imports_inner (some store) (some module) (some cudaEnv)
        (some wasiEnv) prev =
      (prev, Except.error (some ⟨wasiVersionMsg⟩)) ∧
    ∀ ns name, (⟨wasiVersionMsg⟩ : CApiError) ≠
      ⟨unresolvedImportMsg ns name⟩ := by
  constructor
  · simp [cuda_wasi_get_imports_inner, hv]
  · intro ns name he
    exact unresolvedImportMsg_ne_wasiVersionMsg ns name
      (CApiError.mk.injEq .. ▸ he).symm

/-- Witness for C5: a module with an undetectable version, providers that
would satisfy its only import. -/
theorem cuda_wasi_get_imports_undetected_version_witness :
    cuda_wasi_get_imports_inner (some ⟨⟨⟩⟩)
        (some ⟨[("a", "x")], none⟩) (some ⟨⟨[(("a", "x"), 2)]⟩⟩)
        (some ⟨⟨fun _ => [(("a", "x"), 1)]⟩⟩) ([] : List Nat) =
      ([], Except.error (some ⟨wasiVersionMsg⟩)) ∧
    ∀ ns name, (⟨wasiVersionMsg⟩ : CApiError) ≠
      ⟨unresolvedImportMsg ns name⟩ :=
  cuda_wasi_get_imports_undetected_version ⟨⟨⟩⟩ ⟨[("a", "x")], none⟩
    ⟨⟨[(("a", "x"), 2)]⟩⟩ ⟨⟨fun _ => [(("a", "x"), 1)]⟩⟩ [] rfl

/-- C6: each boundary operation taking handles fails the whole call with
the failure signal whenever any of its required handles is absent, and
the caller's out-vector comes back untouched — no table construction,
version detection or lookup result is observable. -/
theorem boundary_missing_handle_fails {B : Type}
    (store : Option wasm_store_t) (module : Option wasm_module_t)
    (cudaEnv : Option (cuda_env_t B)) (wasiEnv : Option (wasi_env_t B))
    (imports : List B) (unordered : List (wasmer_named_ext_t B)) :
    ((store = none ∨ module = none ∨ cudaEnv = none) →
      cuda_get_imports store module cudaEnv imports = (imports, false)) ∧
    ((store = none ∨ module = none ∨ cudaEnv = none ∨ wasiEnv = none) →
      cuda_wasi_get_imports store module cudaEnv wasiEnv imports =
        (imports, false)) ∧
    ((store = none ∨ cudaEnv = none) →
      cuda_get_unordered_imports store cudaEnv unordered =
        (unordered, false)) := by
  refine ⟨?_, ?_, ?_⟩
  · rintro (rfl | rfl | rfl)
    · cases module <;> cases cudaEnv <;> rfl
    · cases store <;> cases cudaEnv <;> rfl
    · cases store <;> cases module <;> rfl
  · rintro (rfl | rfl | rfl | rfl)
    · cases module <;> cases cudaEnv <;> cases wasiEnv <;> rfl
    · cases store <;> cases cudaEnv <;> cases wasiEnv <;> rfl
    · cases store <;> cases module <;> cases wasiEnv <;> rfl
    · cases store <;> cases module <;> cases cudaEnv <;> rfl
  · rintro (rfl | rfl)
    · cases cudaEnv <;> rfl
    · cases store <;> rfl

/-- Witness for C6: each of the three boundary operations at a missing
handle. -/
theorem boundary_missing_handle_fails_witness :
    cuda_get_imports (B := Nat) none (some ⟨[("a", "x")], none⟩)
        (some ⟨⟨[]⟩⟩) [3] = ([3], false) ∧
    cuda_wasi_get_imports (B := Nat) (some ⟨⟨⟩⟩)
        (some ⟨[("a", "x")], none⟩) (some ⟨⟨[]⟩⟩) none [3] =
      ([3], false) ∧
    cuda_get_unordered_imports (B := Nat) (some ⟨⟨⟩⟩) none [] =
      ([], false) :=
  ⟨(boundary_missing_handle_fails none (some ⟨[("a", "x")], none⟩)
      (some ⟨⟨[]⟩⟩) none [3] []).1 (Or.inl rfl),
   (boundary_missing_handle_fails (some ⟨⟨⟩⟩)
      (some ⟨[("a", "x")], none⟩) (some ⟨⟨[]⟩⟩) none [3] []).2.1
      (Or.inr (Or.inr (Or.inr rfl))),
   (boundary_missing_handle_fails (B := Nat) (some ⟨⟨⟩⟩)
      (some ⟨[("a", "x")], none⟩) none none [3] []).2.2
      (Or.inr rfl)⟩

/-- C7: with store and provider handles present the unordered snapshot
succeeds and returns the `(namespace, name, binding)` triples of the full
merged table; and a table merged from two providers offering `m` and `n`
bindings with `k` overlapping keys has exactly `m + n - k` entries, since
insertion overwrites duplicates. -/
theorem unordered_snapshot_spec {B : Type} (store : wasm_store_t)
    (cudaEnv : cuda_env_t B) (unordered : List (wasmer_named_ext_t B))
    (offers1 offers2 : List (ImportKey × B))
    (h1 : (keysOf offers1).Nodup) (h2 : (keysOf offers2).Nodup) :
    cuda_get_unordered_imports_inner (some store) (some cudaEnv)
        unordered =
      ((add_cuda_to_import store.inner cudaEnv.inner []).map
        (fun kb => ⟨kb.1.1, kb.1.2, kb.2⟩), Except.ok ()) ∧
    (registerList (registerList [] offers1) offers2).length =
      offers1.length + offers2.length -
        ((keysOf offers2).filter
          (fun a => decide (a ∈ keysOf offers1))).length := by
  constructor
  · rfl
  · have hlen1 : (registerList ([] : ImportObject B) offers1).length =
        offers1.length := by
      rw [length_registerList offers1 [] h1]
      simp [keysOf]
    have hmemT1 : ∀ a : ImportKey,
        a ∈ keysOf (registerList ([] : ImportObject B) offers1) ↔
          a ∈ keysOf offers1 := by
      intro a
      rw [mem_keysOf_registerList]
      simp
    rw [length_registerList offers2 (registerList [] offers1) h2, hlen1]
    have hcong : (keysOf offers2).filter
          (fun a =>
            decide (a ∉ keysOf (registerList ([] : ImportObject B)
              offers1))) =
        (keysOf offers2).filter
          (fun a => !decide (a ∈ keysOf offers1)) := by
      refine List.filter_congr (fun a _ => ?_)
      calc decide (a ∉ keysOf (registerList ([] : ImportObject B) offers1))
          = decide (a ∉ keysOf offers1) :=
            decide_eq_decide.mpr (not_congr (hmemT1 a))
        _ = !decide (a ∈ keysOf offers1) := decide_not
    rw [hcong]
    have hpart := length_filter_partition
      (fun a => decide (a ∈ keysOf offers1)) (keysOf offers2)
    have hlenk : (keysOf offers2).length = offers2.length := by
      simp [keysOf]
    omega

/-- Witness for C7: providers with 2 and 2 bindings overlapping on one
key; the merged table has 2 + 2 - 1 = 3 entries. -/
theorem unordered_snapshot_spec_witness :
    cuda_get_unordered_imports_inner (some ⟨⟨⟩⟩)
        (some ⟨⟨[(("a", "x"), 1)]⟩⟩) ([] : List (wasmer_named_ext_t Nat)) =
      ((add_cuda_to_import ⟨⟩ ⟨[(("a", "x"), 1)]⟩ []).map
        (fun kb => ⟨kb.1.1, kb.1.2, kb.2⟩), Except.ok ()) ∧
    (registerList (registerList []
        [(("a", "x"), 1), (("a", "y"), 2)])
        [(("a", "y"), 3), (("b", "z"), 4)]).length =
      2 + 2 -
        ((keysOf ([(("a", "y"), 3), (("b", "z"), 4)] :
            ImportObject Nat)).filter
          (fun a =>
            decide (a ∈ keysOf ([(("a", "x"), 1), (("a", "y"), 2)] :
              ImportObject Nat)))).length :=
  unordered_snapshot_spec ⟨⟨⟩⟩ ⟨⟨[(("a", "x"), 1)]⟩⟩ []
    [(("a", "x"), 1), (("a", "y"), 2)] [(("a", "y"), 3), (("b", "z"), 4)]
    (by decide) (by decide)

/-- C8: releasing a provider handle accepts an absent handle as a no-op,
and every release call — on an absent or an owned handle — behaves the
same, so release is idempotent and safe. -/
theorem cuda_env_delete_noop {B : Type} :
    cuda_env_delete (B := B) none = () ∧
    ∀ x : Option (cuda_env_t B),
      cuda_env_delete x = cuda_env_delete (B := B) none :=
  ⟨rfl, fun _ => rfl⟩

/-- C9: creating a GPU environment never fails — for every constructed
provider state it returns exactly the present handle wrapping it; there
is no failure branch. -/
theorem cuda_env_new_total {B : Type} (inner : CudaEnv B) :
    cuda_env_new inner = some ⟨inner⟩ ∧
    (cuda_env_new inner).isSome = true :=
  ⟨rfl, rfl⟩

/-- C10: the GPU-only path does no version detection: its recorded error
is never the undetected-version message, and it fails exactly when a
required handle is absent or some declared key is missing from the
GPU-only table. -/
theorem cuda_get_imports_no_version_check {B : Type}
    (store : Option wasm_store_t) (module : Option wasm_module_t)
    (cudaEnv : Option (cuda_env_t B)) (prev : List B) :
    (∀ e, (cuda_get_imports_inner store module cudaEnv prev).2 =
        Except.error (some e) → e.msg ≠ wasiVersionMsg) ∧
    ((∃ err, (cuda_get_imports_inner store module cudaEnv prev).2 =
        Except.error err) ↔
      (store = none ∨ module = none ∨ cudaEnv = none ∨
        ∃ s m c, store = some s ∧ module = some m ∧ cudaEnv = some c ∧
          ∃ k ∈ m.imports,
            resolve_by_name (add_cuda_to_import s.inner c.inner [])
              k.1 k.2 = none)) := by
  match store, module, cudaEnv with
  | none, m, c =>
      refine ⟨?_, ?_⟩
      · intro e he
        rw [show cuda_get_imports_inner none m c prev =
            (prev, Except.error none) by cases m <;> cases c <;> rfl] at he
        simp at he
      · constructor
        · intro _
          exact Or.inl rfl
        · intro _
          refine ⟨none, ?_⟩
          rw [show cuda_get_imports_inner none m c prev =
            (prev, Except.error none) by cases m <;> cases c <;> rfl]
  | some s, none, c =>
      refine ⟨?_, ?_⟩
      · intro e he
        rw [show cuda_get_imports_inner (some s) none c prev =
            (prev, Except.error none) by cases c <;> rfl] at he
        simp at he
      · constructor
        · intro _
          exact Or.inr (Or.inl rfl)
        · intro _
          refine ⟨none, ?_⟩
          rw [show cuda_get_imports_inner (some s) none c prev =
            (prev, Except.error none) by cases c <;> rfl]
  | some s, some m, none =>
      refine ⟨?_, ?_⟩
      · intro e he
        simp [cuda_get_imports_inner] at he
      · constructor
        · intro _
          exact Or.inr (Or.inr (Or.inl rfl))
        · intro _
          exact ⟨none, rfl⟩
  | some s, some m, some c =>
      have hinner : cuda_get_imports_inner (some s) (some m) (some c)
          prev = map_to_ordered_imports prev m
            (add_cuda_to_import s.inner c.inner []) s.inner := rfl
      refine ⟨?_, ?_⟩
      · intro e he
        rw [hinner] at he
        rw [map_to_ordered_imports] at he
        match hc : collectResolved (add_cuda_to_import s.inner c.inner [])
            m.imports with
        | Except.ok out => rw [hc] at he; simp at he
        | Except.error e' =>
            rw [hc] at he
            simp only at he
            obtain ⟨ns, name, he', _, _⟩ :=
              collectResolved_error_msg _ _ e' hc
            have : e = e' := by
              have := Except.error.inj he
              exact (Option.some.inj this).symm
            rw [this, he']
            exact unresolvedImportMsg_ne_wasiVersionMsg ns name
      · constructor
        · rintro ⟨err, herr⟩
          rw [hinner, map_to_ordered_imports] at herr
          match hc : collectResolved
              (add_cuda_to_import s.inner c.inner []) m.imports with
          | Except.ok out => rw [hc] at herr; simp at herr
          | Except.error e' =>
              obtain ⟨ns, name, _, hres, hmem⟩ :=
                collectResolved_error_msg _ _ e' hc
              exact Or.inr (Or.inr (Or.inr ⟨s, m, c, rfl, rfl, rfl,
                (ns, name), hmem, hres⟩))
        · rintro (h | h | h | ⟨s', m', c', hs, hm, hc, k, hk, hres⟩)
          · exact absurd h (by simp)
          · exact absurd h (by simp)
          · exact absurd h (by simp)
          · obtain rfl := Option.some.inj hs
            obtain rfl := Option.some.inj hm
            obtain rfl := Option.some.inj hc
            obtain ⟨e, he⟩ := collectResolved_err_of_miss
              (add_cuda_to_import s.inner c.inner []) m.imports
              ⟨k, hk, hres⟩
            refine ⟨some e, ?_⟩
            rw [hinner, map_to_ordered_imports, he]

/-- Witness for C10: the GPU-only path with every handle present but an
unsatisfiable import fails, per the right-to-left direction of the
characterization. -/
theorem cuda_get_imports_no_version_check_witness :
    ∃ err, (cuda_get_imports_inner (some ⟨⟨⟩⟩)
        (some ⟨[("gpu", "cuLaunchKernelV2")], none⟩) (some ⟨⟨[]⟩⟩)
        ([] : List Nat)).2 = Except.error err :=
  (cuda_get_imports_no_version_check (some ⟨⟨⟩⟩)
      (some ⟨[("gpu", "cuLaunchKernelV2")], none⟩) (some ⟨⟨[]⟩⟩)
      ([] : List Nat)).2.mpr
    (Or.inr (Or.inr (Or.inr ⟨⟨⟨⟩⟩, ⟨[("gpu", "cuLaunchKernelV2")], none⟩,
      ⟨⟨[]⟩⟩, rfl, rfl, rfl, ("gpu", "cuLaunchKernelV2"),
      List.mem_cons_self _ _, rfl⟩)))

end WasmerCuda
